import Mathlib

/-!
Verification of the Auros job-discovery pipeline against its specification.

Python strings are modelled as `List Char`; machine integers as `ℤ`/`Nat`;
Python floats as `ℚ` (the numeric literals involved are small decimals and
every comparison made by the code is far from the binary-rounding error of
doubles); fallible code returns `Option`/`Except`.  Each definition is a
direct translation of the function of the same name in the repository.
-/

namespace Auros

/-! ## Text normalizer (api/services/scraper.py `_normalize_text`) -/

/-- The whitespace class of Python `str.split()` / `str.strip()`
(ASCII part; the keywords and inputs of this repository contain no
non-ASCII whitespace). -/
def isPySpace (c : Char) : Bool :=
  c = ' ' || c = '\t' || c = '\n' || c = '\r' || c = '\x0b' || c = '\x0c'

/-- Helper of `pySplit`: `acc` holds the current word, reversed. -/
def splitAux : List Char → List Char → List (List Char)
  | [], acc => if acc.isEmpty then [] else [acc.reverse]
  | c :: cs, acc =>
    if isPySpace c then
      if acc.isEmpty then splitAux cs [] else acc.reverse :: splitAux cs []
    else splitAux cs (c :: acc)

/-- Python `text.split()`: split on whitespace runs, dropping empty pieces. -/
def pySplit (s : List Char) : List (List Char) := splitAux s []

/-- Python `" ".join(words)`. -/
def pyJoinSpace : List (List Char) → List Char
  | [] => []
  | [w] => w
  | w :: ws => w ++ ' ' :: pyJoinSpace ws

/-- `_normalize_text(text): return " ".join(text.split())[:50000]`. -/
def _normalize_text (s : List Char) : List Char :=
  (pyJoinSpace (pySplit s)).take 50000

/-- Words produced by `splitAux` are nonempty and whitespace-free. -/
theorem splitAux_words_clean (s : List Char) :
    ∀ acc, (∀ c ∈ acc, isPySpace c = false) →
      ∀ w ∈ splitAux s acc, w ≠ [] ∧ ∀ c ∈ w, isPySpace c = false := by
  induction s with
  | nil =>
    intro acc hacc w hw
    simp only [splitAux] at hw
    by_cases h : acc.isEmpty
    · simp [h] at hw
    · simp [h] at hw
      subst hw
      refine ⟨?_, ?_⟩
      · simpa [List.isEmpty_iff] using h
      · intro c hc
        exact hacc c (List.mem_reverse.mp hc)
  | cons c cs ih =>
    intro acc hacc w hw
    simp only [splitAux] at hw
    split at hw
    · split at hw
      · exact ih [] (by simp) w hw
      · rename_i hemp
        rcases List.mem_cons.mp hw with hw | hw
        · subst hw
          refine ⟨by simpa [List.isEmpty_iff] using hemp, ?_⟩
          intro x hx
          exact hacc x (List.mem_reverse.mp hx)
        · exact ih [] (by simp) w hw
    · rename_i hsp
      rw [Bool.not_eq_true] at hsp
      refine ih (c :: acc) ?_ w hw
      intro x hx
      rcases List.mem_cons.mp hx with h | h
      · subst h; exact hsp
      · exact hacc x h

/-- Upper bound on the length of a space-join. -/
theorem pyJoinSpace_cons_length (w : List Char) (ws : List (List Char)) :
    (pyJoinSpace (w :: ws)).length ≤ w.length + 1 + (pyJoinSpace ws).length := by
  cases ws with
  | nil => simp [pyJoinSpace]
  | cons v vs => simp [pyJoinSpace]; omega

/-- Collapsing whitespace never lengthens the text. -/
theorem pyJoin_splitAux_length (s : List Char) :
    ∀ acc, (pyJoinSpace (splitAux s acc)).length ≤ s.length + acc.length := by
  induction s with
  | nil =>
    intro acc
    simp only [splitAux]
    by_cases h : acc.isEmpty
    · simp [h, pyJoinSpace]
    · simp [h, pyJoinSpace]
  | cons c cs ih =>
    intro acc
    simp only [splitAux]
    by_cases hsp : isPySpace c
    · by_cases hemp : acc.isEmpty
      · simp [hsp, hemp]
        have := ih []
        simp at this
        omega
      · simp [hsp, hemp]
        have h1 := pyJoinSpace_cons_length acc.reverse (splitAux cs [])
        have h2 := ih []
        simp at h1 h2 ⊢
        omega
    · simp [hsp]
      have := ih (c :: acc)
      simp at this
      omega

theorem pyJoin_pySplit_length (s : List Char) :
    (pyJoinSpace (pySplit s)).length ≤ s.length := by
  have := pyJoin_splitAux_length s []
  simpa [pySplit] using this

/-- Consuming a whitespace-free word prepends it (reversed) to the accumulator. -/
theorem splitAux_append_word (w : List Char) :
    ∀ rest acc, (∀ c ∈ w, isPySpace c = false) →
      splitAux (w ++ rest) acc = splitAux rest (w.reverse ++ acc) := by
  induction w with
  | nil => intro rest acc _; simp
  | cons c w' ih =>
    intro rest acc hw
    have hc : isPySpace c = false := hw c (by simp)
    simp only [List.cons_append, splitAux, List.append_eq, hc]
    rw [if_neg (by simp)]
    rw [ih rest (c :: acc) (fun x hx => hw x (by simp [hx]))]
    simp

/-- Splitting a space-join of clean words recovers the words. -/
theorem pySplit_pyJoinSpace (ws : List (List Char))
    (h : ∀ w ∈ ws, w ≠ [] ∧ ∀ c ∈ w, isPySpace c = false) :
    pySplit (pyJoinSpace ws) = ws := by
  induction ws with
  | nil => simp [pySplit, pyJoinSpace, splitAux]
  | cons w ws ih =>
    obtain ⟨hne, hclean⟩ := h w (by simp)
    cases ws with
    | nil =>
      show splitAux (pyJoinSpace [w]) [] = [w]
      have : pyJoinSpace [w] = w ++ [] := by simp [pyJoinSpace]
      rw [this, splitAux_append_word w [] [] hclean]
      simp [splitAux, List.isEmpty_iff, hne]
    | cons v vs =>
      show splitAux (pyJoinSpace (w :: v :: vs)) [] = w :: v :: vs
      have hjoin : pyJoinSpace (w :: v :: vs) = w ++ ' ' :: pyJoinSpace (v :: vs) := by
        simp [pyJoinSpace]
      rw [hjoin, splitAux_append_word w _ [] hclean]
      simp only [splitAux]
      rw [if_pos (by simp [isPySpace])]
      rw [if_neg (by simp [List.isEmpty_iff, hne])]
      have ihh := ih (fun u hu => h u (by simp [hu]))
      simp only [pySplit] at ihh
      simp [ihh, hne]

/-- Splitting an all-whitespace text yields nothing. -/
theorem splitAux_all_space (s : List Char) (h : ∀ c ∈ s, isPySpace c = true) :
    splitAux s [] = [] := by
  induction s with
  | nil => simp [splitAux]
  | cons c cs ih =>
    have hc := h c (by simp)
    simp only [splitAux, hc]
    simp only [List.isEmpty_nil, if_true]
    exact ih (fun x hx => h x (by simp [hx]))

/-- C3 (amended): `_normalize_text` always returns at most 50 000 characters,
maps whitespace-only input to the empty string, and is idempotent on every
input whose whitespace-collapsed form has at most 50 000 characters (in
particular on every input of length ≤ 50 000).  Idempotence fails in general:
see the counterexample. -/
theorem C3_normalize_amended (s : List Char) :
    (_normalize_text s).length ≤ 50000 ∧
    ((∀ c ∈ s, isPySpace c = true) → _normalize_text s = []) ∧
    ((pyJoinSpace (pySplit s)).length ≤ 50000 →
      _normalize_text (_normalize_text s) = _normalize_text s) ∧
    (s.length ≤ 50000 →
      _normalize_text (_normalize_text s) = _normalize_text s) := by
  have hlen : (_normalize_text s).length ≤ 50000 := by
    simp [_normalize_text]
  have hid : (pyJoinSpace (pySplit s)).length ≤ 50000 →
      _normalize_text (_normalize_text s) = _normalize_text s := by
    intro hsmall
    have htake : _normalize_text s = pyJoinSpace (pySplit s) := by
      simp [_normalize_text, List.take_of_length_le hsmall]
    have hclean := splitAux_words_clean s [] (by simp)
    have hround : pySplit (pyJoinSpace (pySplit s)) = pySplit s :=
      pySplit_pyJoinSpace (pySplit s) (fun w hw => hclean w hw)
    calc _normalize_text (_normalize_text s)
        = (pyJoinSpace (pySplit (pyJoinSpace (pySplit s)))).take 50000 := by
          rw [htake]; rfl
      _ = (pyJoinSpace (pySplit s)).take 50000 := by rw [hround]
      _ = _normalize_text s := rfl
  refine ⟨hlen, ?_, hid, ?_⟩
  · intro hall
    simp [_normalize_text, pySplit, splitAux_all_space s hall, pyJoinSpace]
  · intro hs
    exact hid (le_trans (pyJoin_pySplit_length s) hs)

/-- Witness for C3 on concrete inputs. -/
theorem C3_normalize_amended_witness :
    _normalize_text [' ', ' '] = [] ∧
    _normalize_text (_normalize_text ['a', ' ', ' ', 'b']) =
      _normalize_text ['a', ' ', ' ', 'b'] :=
  ⟨(C3_normalize_amended [' ', ' ']).2.1 (by decide),
   (C3_normalize_amended ['a', ' ', ' ', 'b']).2.2.2 (by decide)⟩

/-! The input refuting C3 idempotence is 49 999 letters, a space, one letter.
Its collapsed form is itself (50 001 chars); truncation to 50 000 keeps the
separating space as a trailing space, which a second pass strips.  All facts
about it are proved with the letter count symbolic, instantiated last. -/

theorem replicate_x_clean (n : Nat) : ∀ c ∈ List.replicate n 'x', isPySpace c = false := by
  intro c hc
  rw [List.eq_of_mem_replicate hc]
  decide

theorem c3gen_split (n : Nat) (hn : n ≠ 0) :
    pySplit (List.replicate n 'x' ++ [' ', 'y']) = [List.replicate n 'x', ['y']] := by
  show splitAux (List.replicate n 'x' ++ [' ', 'y']) [] = _
  rw [splitAux_append_word _ _ _ (replicate_x_clean n)]
  simp only [splitAux]
  rw [if_pos (by decide)]
  rw [if_neg (by simp [List.isEmpty_iff, hn])]
  rw [if_neg (by decide)]
  simp [splitAux]

theorem c3gen_split_sp (n : Nat) (hn : n ≠ 0) :
    pySplit (List.replicate n 'x' ++ [' ']) = [List.replicate n 'x'] := by
  show splitAux (List.replicate n 'x' ++ [' ']) [] = _
  rw [splitAux_append_word _ _ _ (replicate_x_clean n)]
  simp only [splitAux]
  rw [if_pos (by decide)]
  rw [if_neg (by simp [List.isEmpty_iff, hn])]
  simp [splitAux]

theorem c3gen_first (n : Nat) (hn : n ≠ 0) (h : n + 1 = 50000) :
    _normalize_text (List.replicate n 'x' ++ [' ', 'y']) =
      List.replicate n 'x' ++ [' '] := by
  show (pyJoinSpace (pySplit (List.replicate n 'x' ++ [' ', 'y']))).take 50000 = _
  rw [c3gen_split n hn]
  have hj : pyJoinSpace [List.replicate n 'x', ['y']] =
      List.replicate n 'x' ++ [' ', 'y'] := by
    simp [pyJoinSpace]
  rw [hj, List.take_append_eq_append_take]
  rw [List.take_of_length_le (by simp; omega)]
  have hsub : 50000 - (List.replicate n 'x').length = 1 := by simp; omega
  rw [hsub]
  rfl

theorem c3gen_second (n : Nat) (hn : n ≠ 0) (hle : n ≤ 50000) :
    _normalize_text (List.replicate n 'x' ++ [' ']) = List.replicate n 'x' := by
  show (pyJoinSpace (pySplit (List.replicate n 'x' ++ [' ']))).take 50000 = _
  rw [c3gen_split_sp n hn]
  show (List.replicate n 'x').take 50000 = _
  rw [List.take_of_length_le (by simpa using hle)]

theorem ne_snoc (l : List Char) (c : Char) : l ≠ l ++ [c] := by
  intro h
  have := congrArg List.length h
  simp at this

/-- C3 counterexample: `_normalize_text` is not idempotent.  On 49 999 `x`s
followed by a space and a `y`, the first pass truncates to the 49 999 `x`s
plus a trailing space (50 000 chars); the second pass strips that space. -/
theorem C3_normalize_counterexample :
    _normalize_text (_normalize_text (List.replicate 49999 'x' ++ [' ', 'y'])) ≠
      _normalize_text (List.replicate 49999 'x' ++ [' ', 'y']) := by
  have h1 : _normalize_text (List.replicate 49999 'x' ++ [' ', 'y']) =
      List.replicate 49999 'x' ++ [' '] :=
    c3gen_first 49999 (by norm_num) (by norm_num)
  have h2 : _normalize_text (List.replicate 49999 'x' ++ [' ']) =
      List.replicate 49999 'x' :=
    c3gen_second 49999 (by norm_num) (by norm_num)
  rw [h1, h2]
  exact ne_snoc (List.replicate 49999 'x') ' '

/-! ## Salary confidence gate (api/services/salary.py `apply_confidence_threshold`) -/

/-- Default of `settings.MIN_SALARY_CONFIDENCE` (api/config.py): 0.60. -/
def MIN_SALARY_CONFIDENCE : ℚ := 3/5

/-- `apply_confidence_threshold(salary_tuple)`; the configured minimum is an
explicit argument.  `if not salary_tuple: return None` — a 4-tuple is never
falsy, so only `None` takes that branch. -/
def apply_confidence_threshold (minConf : ℚ) :
    Option (ℤ × ℤ × String × ℚ) → Option (ℤ × ℤ × String × ℚ)
  | none => none
  | some t => if t.2.2.2 < minConf then none else some t

/-- C6: for every non-null salary tuple, `apply_confidence_threshold` returns
null iff the confidence is strictly below the configured minimum; otherwise
the tuple is returned verbatim, so at exactly 0.60 (the default minimum) it
passes unchanged. -/
theorem C6_confidence_gate (minConf : ℚ) (a b : ℤ) (src : String) (conf : ℚ) :
    (apply_confidence_threshold minConf (some (a, b, src, conf)) = none ↔
      conf < minConf) ∧
    (minConf ≤ conf →
      apply_confidence_threshold minConf (some (a, b, src, conf)) =
        some (a, b, src, conf)) ∧
    apply_confidence_threshold MIN_SALARY_CONFIDENCE (some (a, b, src, 3/5)) =
      some (a, b, src, 3/5) := by
  refine ⟨⟨?_, ?_⟩, ?_, ?_⟩
  · intro h
    by_contra hc
    simp [apply_confidence_threshold, hc] at h
  · intro h
    simp [apply_confidence_threshold, h]
  · intro h
    simp [apply_confidence_threshold, not_lt.mpr h]
  · simp [apply_confidence_threshold, MIN_SALARY_CONFIDENCE]

/-- Witness for C6: at confidence exactly 0.60 the tuple passes unchanged. -/
theorem C6_confidence_gate_witness :
    apply_confidence_threshold MIN_SALARY_CONFIDENCE
      (some (150000, 200000, "ai", 3/5)) = some (150000, 200000, "ai", 3/5) :=
  (C6_confidence_gate MIN_SALARY_CONFIDENCE 150000 200000 "ai" (3/5)).2.1
    (by norm_num [MIN_SALARY_CONFIDENCE])

/-! ## Schedule-hours parser (api/scheduler/jobs.py `_parse_schedule_hours`) -/

/-- Python `str.strip()`. -/
def pyStrip (s : List Char) : List Char :=
  ((s.dropWhile isPySpace).reverse.dropWhile isPySpace).reverse

/-- Decimal digit-string value (`none` when empty or not all digits). -/
def digitsVal : List Char → Option Nat
  | [] => none
  | ds =>
    if ds.all Char.isDigit then
      some (ds.foldl (fun n c => 10 * n + (c.toNat - 48)) 0)
    else none

/-- Python `int(s)` for decimal text: optional surrounding whitespace,
optional sign, then digits.  (Underscore digit separators never occur in
this repository's inputs and are not modelled.) -/
def pyInt (s : List Char) : Option ℤ :=
  match pyStrip s with
  | '+' :: ds => (digitsVal ds).map (fun n => (n : ℤ))
  | '-' :: ds => (digitsVal ds).map (fun n => -(n : ℤ))
  | ds => (digitsVal ds).map (fun n => (n : ℤ))

/-- Python `s.split(",")`: empty pieces are kept; the result is never empty. -/
def splitOnComma : List Char → List (List Char)
  | [] => [[]]
  | c :: cs =>
    if c = ',' then [] :: splitOnComma cs
    else
      match splitOnComma cs with
      | p :: ps => (c :: p) :: ps
      | [] => [[c]]

/-- Python `",".join(pieces)`. -/
def joinComma : List (List Char) → List Char
  | [] => []
  | [p] => p
  | p :: ps => p ++ ',' :: joinComma ps

/-- Python `str(h)` for the in-range hours 0–23 that survive the filter. -/
def pyStrHour (h : ℤ) : List Char := (Nat.repr h.toNat).data

/-- The comprehension `[int(h.strip()) for h in hours_str.split(",")]`:
one failing entry raises `ValueError` and aborts the whole list. -/
def pyMapInts : List (List Char) → Option (List ℤ)
  | [] => some []
  | p :: ps =>
    match pyInt (pyStrip p), pyMapInts ps with
    | some v, some vs => some (v :: vs)
    | _, _ => none

/-- `_parse_schedule_hours(hours_str)` exactly as the source: the whole
comprehension runs inside one `try`, so any non-integer entry selects the
default; otherwise out-of-range entries are filtered, with the default used
when nothing remains. -/
def _parse_schedule_hours (s : List Char) : List Char :=
  match pyMapInts (splitOnComma s) with
  | none => "6,12,18".data
  | some hours =>
    let valid := hours.filter (fun h => decide (0 ≤ h) && decide (h ≤ 23))
    if valid.isEmpty then "6,12,18".data
    else joinComma (valid.map pyStrHour)

/-- Modelled from the claim's wording, for comparison: discard the invalid
entries and keep the valid hours 0–23; fall back to the default only when no
valid entry remains. -/
def specScheduleHours (s : List Char) : List Char :=
  let valid := ((splitOnComma s).filterMap (fun p => pyInt (pyStrip p))).filter
    (fun h => decide (0 ≤ h) && decide (h ≤ 23))
  if valid.isEmpty then "6,12,18".data
  else joinComma (valid.map pyStrHour)

theorem pyMapInts_filterMap (l : List (List Char)) (vs : List ℤ)
    (h : pyMapInts l = some vs) :
    l.filterMap (fun p => pyInt (pyStrip p)) = vs := by
  induction l generalizing vs with
  | nil => simp [pyMapInts] at h; simp [h.symm]
  | cons p ps ih =>
    simp only [pyMapInts] at h
    cases hp : pyInt (pyStrip p) with
    | none => rw [hp] at h; exact absurd h (by simp)
    | some v =>
      rw [hp] at h
      cases hps : pyMapInts ps with
      | none => rw [hps] at h; exact absurd h (by simp)
      | some ws =>
        rw [hps] at h
        simp only [Option.some_inj] at h
        subst h
        simp [List.filterMap_cons, hp, ih ws hps]

/-- C9 (amended): entries that parse as integers but lie outside 0–23 are
discarded entry-wise, and the default applies when no valid hour remains;
but an entry that fails integer parsing aborts the whole list and selects
the default even when other valid hours are present. -/
theorem C9_schedule_amended (s : List Char) :
    (pyMapInts (splitOnComma s) = none →
      _parse_schedule_hours s = "6,12,18".data) ∧
    (∀ hs, pyMapInts (splitOnComma s) = some hs →
      _parse_schedule_hours s = specScheduleHours s) := by
  constructor
  · intro h
    simp [_parse_schedule_hours, h]
  · intro hs h
    have hfm := pyMapInts_filterMap (splitOnComma s) hs h
    simp only [_parse_schedule_hours, specScheduleHours, h, hfm]

/-- Witness for C9's amended theorem: on an all-integer list the parser
agrees with the claim's entry-wise behavior. -/
theorem C9_schedule_amended_witness :
    _parse_schedule_hours ("5,99".data) = specScheduleHours ("5,99".data) :=
  (C9_schedule_amended ("5,99".data)).2 [5, 99] (by decide)

/-- C9 counterexample: on `"6,foo"` the code discards the valid hour 6 and
returns the default `"6,12,18"`, while the claim requires keeping `"6"`. -/
theorem C9_schedule_counterexample :
    _parse_schedule_hours ("6,foo".data) = "6,12,18".data ∧
    specScheduleHours ("6,foo".data) = "6".data ∧
    _parse_schedule_hours ("6,foo".data) ≠ specScheduleHours ("6,foo".data) :=
  ⟨by decide, by decide, by decide⟩

/-! ## Salary regex extraction (api/services/salary.py)

The three patterns of `extract_salary_from_text` are hand-compiled to
backtracking matchers: each piece returns its alternative continuations in
regex preference order (greedy first), and the first full success wins,
exactly as Python's `re` backtracks.  `re.search` tries start positions
left to right. -/

def isDash (c : Char) : Bool := c = '-' || c = '–'

def isKchar (c : Char) : Bool := c = 'k' || c = 'K'

def isDollar (c : Char) : Bool := c = '$'

/-- Single-char piece: the ways to consume one char satisfying `p`. -/
def charAlt (p : Char → Bool) : List Char → List (List Char)
  | c :: rest => if p c then [rest] else []
  | [] => []

/-- `X?` piece, greedy: consume if possible, then the skip alternative. -/
def optPiece (p : Char → Bool) : List Char → List (List Char)
  | c :: rest => if p c then [rest, c :: rest] else [c :: rest]
  | [] => [[]]

/-- `(\d{2,3})`, greedy: three digits first, backtracking to two. -/
def digits23 : List Char → List (List Char × List Char)
  | a :: b :: c :: rest =>
    if a.isDigit && b.isDigit then
      if c.isDigit then [([a, b, c], rest), ([a, b], c :: rest)]
      else [([a, b], c :: rest)]
    else []
  | [a, b] => if a.isDigit && b.isDigit then [([a, b], [])] else []
  | _ => []

/-- `(\d{2,3}(?:,\d{3})?)`, both parts greedy. -/
def digitsComma (cs : List Char) : List (List Char × List Char) :=
  (digits23 cs).flatMap (fun alt =>
    match alt.2 with
    | ',' :: d1 :: d2 :: d3 :: rest2 =>
      if d1.isDigit && d2.isDigit && d3.isDigit then
        [(alt.1 ++ ',' :: [d1, d2, d3], rest2), alt]
      else [alt]
    | _ => [alt])

/-- Pattern `\$\s?(\d{2,3}(?:,\d{3})?)\s?[-–]\s?\$\s?(\d{2,3}(?:,\d{3})?)`
matched at the head of the input; returns the two captures. -/
def p1At (cs : List Char) : Option (List Char × List Char) :=
  ((charAlt isDollar cs).flatMap (fun r1 =>
    (optPiece isPySpace r1).flatMap (fun r2 =>
      (digitsComma r2).flatMap (fun g1 =>
        (optPiece isPySpace g1.2).flatMap (fun r3 =>
          (charAlt isDash r3).flatMap (fun r4 =>
            (optPiece isPySpace r4).flatMap (fun r5 =>
              (charAlt isDollar r5).flatMap (fun r6 =>
                (optPiece isPySpace r6).flatMap (fun r7 =>
                  (digitsComma r7).map (fun g2 => (g1.1, g2.1))))))))))).head?

/-- Pattern `(\d{2,3})\s?k\s?[-–]\s?(\d{2,3})\s?k` (case-insensitive `k`)
matched at the head of the input. -/
def p2At (cs : List Char) : Option (List Char × List Char) :=
  ((digits23 cs).flatMap (fun g1 =>
    (optPiece isPySpace g1.2).flatMap (fun r1 =>
      (charAlt isKchar r1).flatMap (fun r2 =>
        (optPiece isPySpace r2).flatMap (fun r3 =>
          (charAlt isDash r3).flatMap (fun r4 =>
            (optPiece isPySpace r4).flatMap (fun r5 =>
              (digits23 r5).flatMap (fun g2 =>
                (optPiece isPySpace g2.2).flatMap (fun r6 =>
                  (charAlt isKchar r6).map (fun _ => (g1.1, g2.1))))))))))).head?

/-- Pattern `\$\s?(\d{2,3})\s?k\s?[-–]\s?\$\s?(\d{2,3})\s?k` matched at the
head of the input. -/
def p3At (cs : List Char) : Option (List Char × List Char) :=
  ((charAlt isDollar cs).flatMap (fun r0 =>
    (optPiece isPySpace r0).flatMap (fun r1 =>
      (digits23 r1).flatMap (fun g1 =>
        (optPiece isPySpace g1.2).flatMap (fun r2 =>
          (charAlt isKchar r2).flatMap (fun r3 =>
            (optPiece isPySpace r3).flatMap (fun r4 =>
              (charAlt isDash r4).flatMap (fun r5 =>
                (optPiece isPySpace r5).flatMap (fun r6 =>
                  (charAlt isDollar r6).flatMap (fun r7 =>
                    (optPiece isPySpace r7).flatMap (fun r8 =>
                      (digits23 r8).flatMap (fun g2 =>
                        (optPiece isPySpace g2.2).flatMap (fun r9 =>
                          (charAlt isKchar r9).map (fun _ =>
                            (g1.1, g2.1))))))))))))))).head?

/-- `re.search`: leftmost matching start position. -/
def reSearch (pAt : List Char → Option (List Char × List Char)) :
    List Char → Option (List Char × List Char)
  | [] => pAt []
  | c :: rest =>
    match pAt (c :: rest) with
    | some g => some g
    | none => reSearch pAt rest

/-- `_normalize_salary(value)`: drop commas, lowercase, strip; a trailing
`k` is removed and the integer value multiplied by 1000. -/
def _normalize_salary (value : List Char) : Option ℤ :=
  let v := pyStrip ((value.filter (fun c => c ≠ ',')).map Char.toLower)
  match v.getLast? with
  | some 'k' => (pyInt v.dropLast).map (fun n => n * 1000)
  | _ => pyInt v

/-- The literal `0.9` confidence of the regex path, as a normalized
rational (9/10; see `JD_CONFIDENCE_eq`). -/
def JD_CONFIDENCE : ℚ := ⟨9, 10, by decide, by decide⟩

theorem JD_CONFIDENCE_eq : JD_CONFIDENCE = 9 / 10 := by
  rw [JD_CONFIDENCE, Rat.mk'_eq_divInt, Rat.divInt_eq_div]
  norm_num

/-- The pattern loop of `extract_salary_from_text`: a pattern whose match
normalizes to falsy values (None or 0) is passed over, and the loop moves
on to the next pattern. -/
def trySalaryPatterns :
    List (List Char → Option (List Char × List Char)) → List Char →
      Option (ℤ × ℤ × String × ℚ)
  | [], _ => none
  | p :: ps, text =>
    match reSearch p text with
    | none => trySalaryPatterns ps text
    | some g =>
      match _normalize_salary g.1, _normalize_salary g.2 with
      | some a, some b =>
        if a ≠ 0 ∧ b ≠ 0 then some (a, b, "jd", JD_CONFIDENCE)
        else trySalaryPatterns ps text
      | _, _ => trySalaryPatterns ps text

/-- `extract_salary_from_text(text)`. -/
def extract_salary_from_text (text : List Char) :
    Option (ℤ × ℤ × String × ℚ) :=
  if text.isEmpty then none
  else trySalaryPatterns [p1At, p2At, p3At] text

/-- C5: the `NNNk` pattern captures only the digits, so normalization sees
`150` (not `150k`): `extract_salary_from_text("Salary: 150k-200k")` returns
`(150, 200, "jd", 0.9)`, reproducing the documented latent bug. -/
theorem C5_salary_k_bug :
    extract_salary_from_text ("Salary: 150k-200k".data) =
      some (150, 200, "jd", 9 / 10) := by
  rw [← JD_CONFIDENCE_eq]
  decide

/-! ## Relevance scorer (api/services/scorer.py)

The `\b kw \b` regex patterns (with `\s+` for spaces inside a keyword,
IGNORECASE) are hand-compiled to a word-boundary keyword search. -/

/-- Regex `\w` (ASCII part, which covers every keyword involved). -/
def isWordChar (c : Char) : Bool := c.isAlphanum || c = '_'

/-- Match a keyword at the head of the text, case-insensitively; a space in
the keyword consumes one or more whitespace characters (`\s+`; the next
keyword char is never whitespace, so greedy consumption is exact). -/
def matchKwChars : List Char → List Char → Option (List Char)
  | [], rest => some rest
  | _ :: _, [] => none
  | k :: ks, c :: rest =>
    if k = ' ' then
      if isPySpace c then matchKwChars ks (rest.dropWhile isPySpace) else none
    else if c.toLower = k.toLower then matchKwChars ks rest else none

/-- Does the keyword match at this position, ending at a word boundary? -/
def matchesHere (kw text : List Char) : Bool :=
  match matchKwChars kw text with
  | some [] => true
  | some (c :: _) => !isWordChar c
  | none => false

/-- Scan every start position; a position qualifies for `\b` only when the
preceding character is not a word character. -/
def kwSearchAux (kw : List Char) : List Char → Bool → Bool
  | [], prevWord => !prevWord && matchesHere kw []
  | c :: rest, prevWord =>
    (!prevWord && matchesHere kw (c :: rest)) ||
      kwSearchAux kw rest (isWordChar c)

/-- `pattern.search(text) is not None` for a `\b kw \b` pattern. -/
def kwSearch (kw text : List Char) : Bool := kwSearchAux kw text false

def TITLE_KEYWORDS : List (List Char) :=
  ["principal".data, "senior".data, "staff".data, "lead".data, "tpm".data,
   "technical program".data, "program manager".data, "product manager".data]

def AI_PLATFORM_KEYWORDS : List (List Char) :=
  ["ai".data, "ml".data, "machine learning".data, "platform".data,
   "infrastructure".data, "infra".data, "sre".data, "reliability".data,
   "observability".data, "cloud".data, "data".data, "genai".data,
   "llm".data, "ops".data, "devops".data]

/-- Number of keyword patterns that match somewhere in the text. -/
def countHits (kws : List (List Char)) (text : List Char) : Nat :=
  (kws.filter (fun kw => kwSearch kw text)).length

def TITLE_WEIGHT : ℚ := 3/10
def KEYWORD_WEIGHT : ℚ := 1/4
def YOE_WEIGHT : ℚ := 1/5
def TIER_WEIGHT : ℚ := 3/20
def WORK_MODE_WEIGHT : ℚ := 1/10

def score_title (title : List Char) : ℚ :=
  min 1 ((countHits TITLE_KEYWORDS title : ℚ) / 3)

def score_keywords (text : List Char) : ℚ :=
  min 1 ((countHits AI_PLATFORM_KEYWORDS text : ℚ) / 5)

/-- `score_yoe` with the default target band 8–15.  The Python signature
says `int | None` but is unenforced and the pipeline can pass floats, so the
model takes rationals. -/
def score_yoe (yoe_min yoe_max : Option ℚ) : ℚ :=
  match yoe_min, yoe_max with
  | none, none => 1/2
  | _, _ =>
    let low := yoe_min.getD 8
    let high := yoe_max.getD 15
    let overlap := max 0 (min high 15 - max low 8)
    let span := max 1 (high - low)
    min 1 (overlap / span)

def score_company_tier (tier : ℤ) : ℚ :=
  if tier = 1 then 1 else if tier = 2 then 4/5 else 3/5

/-- `score_work_mode`; `settings.PREFERRED_WORK_MODE` is an explicit
argument.  `if not work_mode` is Python falsy: `None` or the empty string. -/
def score_work_mode (preferredWorkMode : List Char)
    (work_mode : Option (List Char)) : ℚ :=
  let preferred := preferredWorkMode.map Char.toLower
  if preferred = "any".data then 1
  else
    match work_mode with
    | none => 1/2
    | some wm =>
      if wm.isEmpty then 1/2
      else if wm.map Char.toLower = preferred then 1 else 1/5

/-- Python `round(x, 4)` on exact rationals: decimal rounding to 4 places.
(Python rounds the nearest binary double half-to-even; on this pipeline's
values the ℚ model agrees to the claim's granularity.) -/
def pyRound4 (x : ℚ) : ℚ := (round (x * 10000) : ℤ) / 10000

/-- `compute_match_score`: the weighted sum, clamped to [0,1], rounded. -/
def compute_match_score (preferredWorkMode title description : List Char)
    (yoe_min yoe_max : Option ℚ) (company_tier : ℤ)
    (work_mode : Option (List Char)) : ℚ :=
  pyRound4 (max 0 (min 1
    (score_title title * TITLE_WEIGHT
      + score_keywords description * KEYWORD_WEIGHT
      + score_yoe yoe_min yoe_max * YOE_WEIGHT
      + score_company_tier company_tier * TIER_WEIGHT
      + score_work_mode preferredWorkMode work_mode * WORK_MODE_WEIGHT)))

theorem pyRound4_bounds (x : ℚ) (h0 : 0 ≤ x) (h1 : x ≤ 1) :
    0 ≤ pyRound4 x ∧ pyRound4 x ≤ 1 ∧ ∃ k : ℤ, pyRound4 x = (k : ℚ) / 10000 := by
  have hr0 : (0 : ℤ) ≤ round (x * 10000) := by
    rw [round_eq]
    refine Int.floor_nonneg.mpr ?_
    nlinarith
  have hr1 : round (x * 10000) ≤ 10000 := by
    rw [round_eq]
    have hb : ⌊(10000 : ℚ) + 1/2⌋ = 10000 := by
      rw [Int.floor_eq_iff]
      norm_num
    calc ⌊x * 10000 + 1/2⌋ ≤ ⌊(10000 : ℚ) + 1/2⌋ :=
          Int.floor_le_floor (by nlinarith)
      _ = 10000 := hb
  refine ⟨?_, ?_, round (x * 10000), rfl⟩
  · unfold pyRound4
    positivity
  · unfold pyRound4
    rw [div_le_one (by norm_num)]
    exact_mod_cast hr1

/-- C4: for every title, description, YOE bounds (possibly null), tier and
work mode (and any configured preferred work mode), `compute_match_score`
is in [0, 1] and is an integer multiple of 1/10000, i.e. has at most four
decimal places. -/
theorem C4_score_range (preferred title description : List Char)
    (yoe_min yoe_max : Option ℚ) (company_tier : ℤ)
    (work_mode : Option (List Char)) :
    0 ≤ compute_match_score preferred title description yoe_min yoe_max
        company_tier work_mode ∧
    compute_match_score preferred title description yoe_min yoe_max
        company_tier work_mode ≤ 1 ∧
    ∃ k : ℤ, compute_match_score preferred title description yoe_min yoe_max
        company_tier work_mode = (k : ℚ) / 10000 := by
  unfold compute_match_score
  exact pyRound4_bounds _ (le_max_left _ _)
    (max_le (by norm_num) (min_le_left _ _))

/-! ## JSON salvage (api/utils/json.py `safe_json_parse`)

`json.loads` is modelled by a strict recursive-descent JSON parser.
Numbers are exact rationals and the int/float distinction is preserved
(Python yields `int` iff the literal has no fraction and no exponent).
The non-standard `NaN`/`Infinity` literals Python accepts by default are
not representable in ℚ and are not modelled; nor is Python's recursion
limit on deeply nested documents, whose role the fuel argument plays. -/

inductive JVal where
  | null : JVal
  | bool : Bool → JVal
  | jint : ℤ → JVal
  | jnum : ℚ → JVal
  | str : List Char → JVal
  | arr : List JVal → JVal
  | obj : List (List Char × JVal) → JVal

def jsonWs (c : Char) : Bool := c = ' ' || c = '\t' || c = '\n' || c = '\r'

def skipWs (cs : List Char) : List Char := cs.dropWhile jsonWs

def hexVal (c : Char) : Option Nat :=
  if c.isDigit then some (c.toNat - 48)
  else if 'a' ≤ c ∧ c ≤ 'f' then some (c.toNat - 87)
  else if 'A' ≤ c ∧ c ≤ 'F' then some (c.toNat - 55)
  else none

/-- JSON string body after the opening quote.  Strict mode: raw control
characters are rejected.  (Surrogate-pair `\uXXXX` escapes are mapped
through `Char.ofNat` without pairing; they never occur here.) -/
def parseJString : List Char → Option (List Char × List Char)
  | [] => none
  | '"' :: rest => some ([], rest)
  | '\\' :: e :: rest =>
    match e with
    | '"' => (parseJString rest).map (fun sr => ('"' :: sr.1, sr.2))
    | '\\' => (parseJString rest).map (fun sr => ('\\' :: sr.1, sr.2))
    | '/' => (parseJString rest).map (fun sr => ('/' :: sr.1, sr.2))
    | 'b' => (parseJString rest).map (fun sr => ('\x08' :: sr.1, sr.2))
    | 'f' => (parseJString rest).map (fun sr => ('\x0c' :: sr.1, sr.2))
    | 'n' => (parseJString rest).map (fun sr => ('\n' :: sr.1, sr.2))
    | 'r' => (parseJString rest).map (fun sr => ('\r' :: sr.1, sr.2))
    | 't' => (parseJString rest).map (fun sr => ('\t' :: sr.1, sr.2))
    | 'u' =>
      match rest with
      | h1 :: h2 :: h3 :: h4 :: rest2 =>
        match hexVal h1, hexVal h2, hexVal h3, hexVal h4 with
        | some a, some b, some c, some d =>
          (parseJString rest2).map (fun sr =>
            (Char.ofNat (4096 * a + 256 * b + 16 * c + d) :: sr.1, sr.2))
        | _, _, _, _ => none
      | _ => none
    | _ => none
  | c :: rest =>
    if c.toNat < 32 then none
    else (parseJString rest).map (fun sr => (c :: sr.1, sr.2))

def digitsToNat (ds : List Char) : Nat :=
  ds.foldl (fun n c => 10 * n + (c.toNat - 48)) 0

/-- JSON number: `-?(0|[1-9][0-9]*)(\.[0-9]+)?([eE][+-]?[0-9]+)?`.
Integer literal (no fraction, no exponent) gives a Python `int`. -/
def parseNumber (cs : List Char) : Option (JVal × List Char) :=
  let signed : Bool × List Char :=
    match cs with
    | '-' :: t => (true, t)
    | _ => (false, cs)
  let cs1 := signed.2
  match cs1.head? with
  | none => none
  | some c0 =>
    if ¬c0.isDigit then none
    else
      let ds := cs1.takeWhile Char.isDigit
      let cs2 := cs1.dropWhile Char.isDigit
      if 1 < ds.length ∧ ds.head? = some '0' then none
      else
        let ipart : Nat := digitsToNat ds
        let fracRes : Option (ℚ × List Char × Bool) :=
          match cs2 with
          | '.' :: cs3 =>
            let fs := cs3.takeWhile Char.isDigit
            if fs.isEmpty then none
            else some ((digitsToNat fs : ℚ) / (10 : ℚ) ^ fs.length,
              cs3.dropWhile Char.isDigit, true)
          | _ => some (0, cs2, false)
        match fracRes with
        | none => none
        | some (frac, cs4, hasFrac) =>
          let expRes : Option (ℤ × List Char × Bool) :=
            match cs4 with
            | 'e' :: cs5 | 'E' :: cs5 =>
              let signedE : Bool × List Char :=
                match cs5 with
                | '+' :: t => (false, t)
                | '-' :: t => (true, t)
                | _ => (false, cs5)
              let es := signedE.2.takeWhile Char.isDigit
              if es.isEmpty then none
              else
                let ev : ℤ := if signedE.1 then -(digitsToNat es : ℤ)
                  else (digitsToNat es : ℤ)
                some (ev, signedE.2.dropWhile Char.isDigit, true)
            | _ => some (0, cs4, false)
          match expRes with
          | none => none
          | some (ex, rest, hasExp) =>
            if hasFrac ∨ hasExp then
              let mag : ℚ := ((ipart : ℚ) + frac) * (10 : ℚ) ^ ex
              some (.jnum (if signed.1 then -mag else mag), rest)
            else
              some (.jint (if signed.1 then -(ipart : ℤ) else (ipart : ℤ)), rest)

mutual

def parseJValue : Nat → List Char → Option (JVal × List Char)
  | 0, _ => none
  | fuel + 1, cs =>
    match skipWs cs with
    | 'n' :: 'u' :: 'l' :: 'l' :: rest => some (.null, rest)
    | 't' :: 'r' :: 'u' :: 'e' :: rest => some (.bool true, rest)
    | 'f' :: 'a' :: 'l' :: 's' :: 'e' :: rest => some (.bool false, rest)
    | '"' :: rest => (parseJString rest).map (fun sr => (.str sr.1, sr.2))
    | '\x5b' :: rest =>
      match skipWs rest with
      | '\x5d' :: r => some (.arr [], r)
      | _ => (parseArrElems fuel rest).map (fun er => (.arr er.1, er.2))
    | '\x7b' :: rest =>
      match skipWs rest with
      | '\x7d' :: r => some (.obj [], r)
      | _ => (parseObjMembers fuel rest).map (fun mr => (.obj mr.1, mr.2))
    | rest => parseNumber rest

def parseArrElems : Nat → List Char → Option (List JVal × List Char)
  | 0, _ => none
  | fuel + 1, cs =>
    match parseJValue fuel cs with
    | none => none
    | some (v, r1) =>
      match skipWs r1 with
      | ',' :: r2 =>
        (parseArrElems fuel r2).map (fun er => (v :: er.1, er.2))
      | '\x5d' :: r2 => some ([v], r2)
      | _ => none

def parseObjMembers : Nat → List Char → Option (List (List Char × JVal) × List Char)
  | 0, _ => none
  | fuel + 1, cs =>
    match skipWs cs with
    | '"' :: r1 =>
      match parseJString r1 with
      | none => none
      | some (key, r2) =>
        match skipWs r2 with
        | ':' :: r3 =>
          match parseJValue fuel r3 with
          | none => none
          | some (v, r4) =>
            match skipWs r4 with
            | ',' :: r5 =>
              (parseObjMembers fuel r5).map (fun mr => ((key, v) :: mr.1, mr.2))
            | '\x7d' :: r5 => some ([(key, v)], r5)
            | _ => none
        | _ => none
    | _ => none

end

/-- `json.loads(text)`: one value, surrounding whitespace only. -/
def json_loads (cs : List Char) : Option JVal :=
  match parseJValue (3 * cs.length + 8) cs with
  | some (v, rest) => if (skipWs rest).isEmpty then some v else none
  | none => none

/-- Longest prefix ending at the last closing brace, if any. -/
def upToLastBrace : List Char → Option (List Char)
  | [] => none
  | c :: rest =>
    match upToLastBrace rest with
    | some t => some (c :: t)
    | none => if c = '\x7d' then some [c] else none

/-- `re.search(r"\x7b.*\x7d", text, re.DOTALL)`: the greedy dot spans from
the first opening brace to the last closing brace after it; if the first
opening brace has no closing brace after it, no later one has either. -/
def braceSpan (cs : List Char) : Option (List Char) :=
  match cs.dropWhile (fun c => c ≠ '\x7b') with
  | [] => none
  | l :: rest => (upToLastBrace rest).map (fun t => l :: t)

/-- `safe_json_parse(text)`: strict parse, then strict parse of the brace
span, then null. -/
def safe_json_parse (cs : List Char) : Option JVal :=
  match json_loads cs with
  | some v => some v
  | none =>
    match braceSpan cs with
    | none => none
    | some sub => json_loads sub

def jIsObj : JVal → Bool
  | .obj _ => true
  | _ => false

/-- C7 (amended): `safe_json_parse` never throws and returns the strict
parse when it succeeds, else the strict parse of the first maximal brace
span, else null — but the value returned is whatever JSON value the text
holds, not necessarily a JSON object. -/
theorem C7_safe_json_parse_amended (s : List Char) :
    (∀ v, json_loads s = some v → safe_json_parse s = some v) ∧
    (json_loads s = none →
      safe_json_parse s = (braceSpan s).bind json_loads) ∧
    (json_loads s = none → braceSpan s = none → safe_json_parse s = none) := by
  refine ⟨?_, ?_, ?_⟩
  · intro v hv
    simp [safe_json_parse, hv]
  · intro h
    simp only [safe_json_parse, h]
    cases braceSpan s with
    | none => rfl
    | some sub => rfl
  · intro h hb
    simp [safe_json_parse, h, hb]

/-- Witness for C7 at concrete inputs: a strict failure that the brace-span
retry salvages, and a doubly failing input yielding null. -/
theorem C7_safe_json_parse_amended_witness :
    safe_json_parse ("x \x7b\"a\": 1\x7d y".data) =
      (braceSpan ("x \x7b\"a\": 1\x7d y".data)).bind json_loads ∧
    safe_json_parse ("no json here".data) = none :=
  ⟨(C7_safe_json_parse_amended ("x \x7b\"a\": 1\x7d y".data)).2.1 rfl,
   (C7_safe_json_parse_amended ("no json here".data)).2.2 rfl rfl⟩

/-- C7 counterexample: `safe_json_parse("42")` returns the integer 42 —
a JSON value that is not a JSON object — because `json.loads` accepts any
top-level JSON value. -/
theorem C7_safe_json_parse_counterexample :
    safe_json_parse ("42".data) = some (JVal.jint 42) ∧
    jIsObj (JVal.jint 42) = false :=
  ⟨rfl, rfl⟩

/-! ## LLM extraction and the job pipeline
(api/services/llm.py, api/services/salary.py, api/services/pipeline.py)

The network is abstracted into oracles: an `LLMOutcome` is what the
retry-wrapped HTTP call produced — either a transport failure that survived
all retries (`retry_async` re-raises it) or the `response` body text. -/

inductive LLMOutcome where
  | httpFail : LLMOutcome
  | response : List Char → LLMOutcome

/-- The Python exceptions the pipeline distinguishes: `httpErr` stands for
the classified set `(ScrapeError, httpx.HTTPError, asyncio.TimeoutError,
SQLAlchemyError)` that `_process_company`'s except clause catches;
`typeErr` stands for `TypeError`/`AttributeError`, which nothing in the
scan catches. -/
inductive PyErr where
  | httpErr : PyErr
  | typeErr : PyErr
deriving DecidableEq

/-- The sentinel defaults `extract_job_info` substitutes for an
unsalvageable response. -/
def EXTRACT_DEFAULTS : JVal :=
  .obj [("primary_function".data, .str "Other".data),
        ("yoe_required".data, .null),
        ("work_mode".data, .str "unclear".data),
        ("location".data, .str "Unknown".data),
        ("relevance_score".data, .jnum 0),
        ("key_requirements".data, .arr [])]

/-- `extract_job_info(job_description)`: LLM call, salvage parse, sentinel
defaults.  A transport failure that exhausted the retries propagates. -/
def extract_job_info : LLMOutcome → Except PyErr JVal
  | .httpFail => .error .httpErr
  | .response raw =>
    match safe_json_parse raw with
    | none => .ok EXTRACT_DEFAULTS
    | some v => .ok v

/-- Python truthiness of a JSON-derived value. -/
def jTruthy : JVal → Bool
  | .null => false
  | .bool b => b
  | .jint n => n ≠ 0
  | .jnum q => q ≠ 0
  | .str s => !s.isEmpty
  | .arr xs => !xs.isEmpty
  | .obj kvs => !kvs.isEmpty

def jTruthyOpt : Option JVal → Bool
  | none => false
  | some v => jTruthy v

/-- Lookup in a parsed JSON dict: duplicate keys resolve to the last
occurrence (as `json.loads` builds the dict); a JSON null value and a
missing key are both Python `None` under `.get`. -/
def objGet (kvs : List (List Char × JVal)) (k : List Char) : Option JVal :=
  match kvs.reverse.find? (fun kv => kv.1 == k) with
  | some (_, .null) => none
  | some (_, w) => some w
  | none => none

/-- `parsed.get(k)`: `.get` on a non-dict raises `AttributeError`. -/
def pyDictGet (v : JVal) (k : List Char) : Except PyErr (Option JVal) :=
  match v with
  | .obj kvs => .ok (objGet kvs k)
  | _ => .error .typeErr

/-- `isinstance(x, int)` for JSON-derived values; Python `bool` is an `int`
subclass and passes. -/
def pyIsInt : JVal → Bool
  | .jint _ => true
  | .bool _ => true
  | _ => false

def pyIntValJ : JVal → ℤ
  | .jint n => n
  | .bool b => if b then 1 else 0
  | _ => 0

/-- `isinstance(x, (int, float))`. -/
def pyIsNum : JVal → Bool
  | .jint _ => true
  | .jnum _ => true
  | .bool _ => true
  | _ => false

def pyNumValJ : JVal → ℚ
  | .jint n => (n : ℚ)
  | .jnum q => q
  | .bool b => if b then 1 else 0
  | _ => 0

/-- `estimate_salary_with_llm(title, company, description)`: LLM call,
salvage parse (None on failure), `isinstance(..., int)` gate on the bounds,
confidence coerced to 0.0 when non-numeric; source tag "ai". -/
def estimate_salary_with_llm (llm : LLMOutcome) :
    Except PyErr (Option (ℤ × ℤ × String × ℚ)) :=
  match llm with
  | .httpFail => .error .httpErr
  | .response raw =>
    match safe_json_parse raw with
    | none => .ok none
    | some parsed =>
      match pyDictGet parsed ("salary_min".data) with
      | .error e => .error e
      | .ok smin =>
        match pyDictGet parsed ("salary_max".data) with
        | .error e => .error e
        | .ok smax =>
          match pyDictGet parsed ("confidence".data) with
          | .error e => .error e
          | .ok conf =>
            match smin, smax with
            | some a, some b =>
              if pyIsInt a && pyIsInt b then
                .ok (some (pyIntValJ a, pyIntValJ b, "ai",
                  match conf with
                  | some cv => if pyIsNum cv then pyNumValJ cv else 0
                  | none => 0))
              else .ok none
            | _, _ => .ok none

/-- One scraped posting, as `_process_job` receives it. -/
structure Posting where
  url : List Char
  title : List Char
  description : List Char

/-- External effects of processing one posting: the generated row id, the
two LLM call outcomes, and the Slack notifier result (`none` models the
webhook call itself raising after the row was committed). -/
structure JobOracle where
  newId : String
  llmExtract : LLMOutcome
  llmSalary : LLMOutcome
  notifySent : Option Bool

structure CompanyRow where
  id : String
  name : List Char
  careers_url : List Char
  tier : ℤ
  enabled : Bool
  last_scraped : Option Nat
  scrape_status : Option String

/-- A persisted `Job` row (api/models.py).  Fields that come straight from
parsed LLM JSON keep their raw values, exactly as SQLAlchemy receives
them. -/
structure JobRow where
  id : String
  company_id : String
  title : List Char
  primary_function : Option JVal
  url : List Char
  yoe_min : Option JVal
  yoe_max : Option JVal
  yoe_source : Option String
  salary_min : Option ℤ
  salary_max : Option ℤ
  salary_source : Option String
  salary_confidence : Option ℚ
  salary_estimated : Bool
  work_mode : Option JVal
  location : Option JVal
  match_score : ℚ
  raw_description : Option (List Char)
  status : String
  first_seen : Nat
  last_seen : Nat
  notified : Bool

/-- The configuration defaults the pipeline reads (api/config.py). -/
structure Settings where
  SLACK_MIN_SCORE : ℚ
  PREFERRED_WORK_MODE : List Char
  MIN_SALARY_CONFIDENCE : ℚ

def defaultSettings : Settings :=
  { SLACK_MIN_SCORE := 7/10
    PREFERRED_WORK_MODE := "any".data
    MIN_SALARY_CONFIDENCE := MIN_SALARY_CONFIDENCE }

def _POTENTIAL_KEYWORDS : List (List Char) :=
  ["program".data, "tpm".data, "technical program".data,
   "product manager".data, "platform".data, "infrastructure".data,
   "infra".data, "ai".data, "ml".data, "reliability".data, "sre".data,
   "principal".data, "senior".data]

/-- `is_potential_match(title)` (api/services/pipeline.py). -/
def is_potential_match (title : List Char) : Bool :=
  _POTENTIAL_KEYWORDS.any (fun kw => kwSearch kw title)

/-- Python falsiness of a nullable string column (`None` or `""`). -/
def pyStrFalsy : Option (List Char) → Bool
  | none => true
  | some s => s.isEmpty

/-- A JSON-derived YOE bound as `score_yoe` sees it: numeric values
(ints, floats, bools) enter Python's min/max comparisons fine; any other
truthy-or-not value raises `TypeError` there. -/
def yoeArg : Option JVal → Except PyErr (Option ℚ)
  | none => .ok none
  | some v => if pyIsNum v then .ok (some (pyNumValJ v)) else .error .typeErr

/-- A JSON-derived work mode as `score_work_mode` sees it: when the
preferred mode is "any" the value is never inspected; otherwise a truthy
non-string raises `AttributeError` at `.lower()` and a falsy value scores
as missing. -/
def workModeArg (preferred : List Char) :
    Option JVal → Except PyErr (Option (List Char))
  | none => .ok none
  | some (.str s) => .ok (some s)
  | some v =>
    if preferred.map Char.toLower = "any".data then .ok none
    else if jTruthy v then .error .typeErr
    else .ok none

/-- The new `Job(...)` constructor call in `_process_job`. -/
def buildJobRow (now : Nat) (o : JobOracle) (company : CompanyRow)
    (p : Posting) (primaryJ yoe_minJ yoe_maxJ work_modeJ locationJ : Option JVal)
    (salary : Option (ℤ × ℤ × String × ℚ)) (score : ℚ) : JobRow :=
  { id := o.newId
    company_id := company.id
    title := p.title
    primary_function := primaryJ
    url := p.url
    yoe_min := yoe_minJ
    yoe_max := yoe_maxJ
    yoe_source :=
      if jTruthyOpt yoe_minJ || jTruthyOpt yoe_maxJ then some "extracted"
      else none
    salary_min := salary.map (fun t => t.1)
    salary_max := salary.map (fun t => t.2.1)
    salary_source := salary.map (fun t => t.2.2.1)
    salary_confidence := salary.map (fun t => t.2.2.2)
    salary_estimated := salary.map (fun t => t.2.2.1) == some "ai"
    work_mode := work_modeJ
    location := locationJ
    match_score := score
    raw_description := some p.description
    status := "new"
    first_seen := now
    last_seen := now
    notified := false }

/-- The new-job path of `_process_job` up to (and including) building the
row; every statement that can raise sits before `session.add`. -/
def processNewRow (s : Settings) (now : Nat) (o : JobOracle)
    (company : CompanyRow) (p : Posting) : Except PyErr JobRow :=
  match extract_job_info o.llmExtract with
  | .error e => .error e
  | .ok extracted =>
    match pyDictGet extracted ("yoe_required".data) with
    | .error e => .error e
    | .ok yoeRaw =>
      let yoe : Option JVal :=
        match yoeRaw with
        | some v => if jTruthy v then some v else none
        | none => none
      let yoe_minJ : Option JVal :=
        match yoe with
        | some (.obj kvs) => objGet kvs ("min".data)
        | _ => none
      let yoe_maxJ : Option JVal :=
        match yoe with
        | some (.obj kvs) => objGet kvs ("max".data)
        | _ => none
      match pyDictGet extracted ("work_mode".data) with
      | .error e => .error e
      | .ok work_modeJ =>
        match pyDictGet extracted ("location".data) with
        | .error e => .error e
        | .ok locationJ =>
          match pyDictGet extracted ("primary_function".data) with
          | .error e => .error e
          | .ok primaryJ =>
            match
              (match extract_salary_from_text p.description with
               | some t => .ok (some t)
               | none => estimate_salary_with_llm o.llmSalary :
                Except PyErr (Option (ℤ × ℤ × String × ℚ)))
            with
            | .error e => .error e
            | .ok salary1 =>
              let salary := apply_confidence_threshold
                s.MIN_SALARY_CONFIDENCE salary1
              match yoeArg yoe_minJ with
              | .error e => .error e
              | .ok yoe_minQ =>
                match yoeArg yoe_maxJ with
                | .error e => .error e
                | .ok yoe_maxQ =>
                  match workModeArg s.PREFERRED_WORK_MODE work_modeJ with
                  | .error e => .error e
                  | .ok wmArg =>
                    .ok (buildJobRow now o company p primaryJ yoe_minJ
                      yoe_maxJ work_modeJ locationJ salary
                      (compute_match_score s.PREFERRED_WORK_MODE p.title
                        p.description yoe_minQ yoe_maxQ company.tier wmArg))

/-- The mutation applied to an existing row with the same URL: refresh
`last_seen`, backfill an empty (null or "") `raw_description`. -/
def touchExisting (now : Nat) (description : List Char) (j : JobRow) : JobRow :=
  { j with
    last_seen := now
    raw_description :=
      if pyStrFalsy j.raw_description then some description
      else j.raw_description }

def updateFirst (pred : JobRow → Bool) (f : JobRow → JobRow) :
    List JobRow → List JobRow
  | [] => []
  | j :: js => if pred j then f j :: js else j :: updateFirst pred f js

/-- The jobs table and the outcome of one `_process_job` call: `ok isNew`,
or the Python exception that escaped (the table keeps any row committed
before the raise). -/
structure StepResult where
  db : List JobRow
  outcome : Except PyErr Bool

/-- `_process_job(session, company, job_data, ctx)` with external calls
supplied by the oracle `o`.  Database reads/writes themselves are modelled
as infallible. -/
def _process_job (s : Settings) (now : Nat) (o : JobOracle)
    (company : CompanyRow) (db : List JobRow) (p : Posting) : StepResult :=
  if (db.find? (fun j => j.url == p.url)).isSome then
    { db := updateFirst (fun j => j.url == p.url)
        (touchExisting now p.description) db
      outcome := .ok false }
  else if ¬ is_potential_match p.title then
    { db := db, outcome := .ok false }
  else
    match processNewRow s now o company p with
    | .error e => { db := db, outcome := .error e }
    | .ok row =>
      if s.SLACK_MIN_SCORE ≤ row.match_score then
        match o.notifySent with
        | none => { db := db ++ [row], outcome := .error .httpErr }
        | some sent =>
          { db := db ++ [if sent then { row with notified := true } else row]
            outcome := .ok true }
      else { db := db ++ [row], outcome := .ok true }

/-- Per-scan counters and error list (`ScanContext`). -/
structure ScanCtx where
  companies_scanned : Nat
  jobs_found : Nat
  jobs_new : Nat
  errors : List (List Char)

/-- What `scrape_jobs_with_descriptions` produced for a company: a posting
list (paired with each posting's processing oracle) or a classified scrape
failure with its message. -/
inductive ScrapeOutcome where
  | ok : List (Posting × JobOracle) → ScrapeOutcome
  | err : List Char → ScrapeOutcome

structure CompanyResult where
  db : List JobRow
  company : CompanyRow
  ctx : ScanCtx
  jobs_found : Nat
  jobs_new : Nat
  uncaught : Option PyErr

/-- The `for job_data in jobs` loop of `_process_company`; stops at the
first escaping exception. -/
def processJobsLoop (s : Settings) (now : Nat) (company : CompanyRow) :
    List (Posting × JobOracle) → List JobRow → ScanCtx → Nat →
      List JobRow × ScanCtx × Nat × Option PyErr
  | [], db, ctx, jobsNew => (db, ctx, jobsNew, none)
  | (p, o) :: rest, db, ctx, jobsNew =>
    let r := _process_job s now o company db p
    match r.outcome with
    | .ok true =>
      processJobsLoop s now company rest r.db
        { ctx with jobs_new := ctx.jobs_new + 1 } (jobsNew + 1)
    | .ok false => processJobsLoop s now company rest r.db ctx jobsNew
    | .error e => (r.db, ctx, jobsNew, some e)

/-- `_process_company(session, company, ctx, logger)`: mark the company,
process each posting, and catch only the classified exception set — which
marks the company failed, records `"{company.name}: {message}"` and skips
the remaining postings.  `TypeError`/`AttributeError` propagate (the
message text of a caught exception is abstracted as "http error"). -/
def _process_company (s : Settings) (now : Nat) (outcome : ScrapeOutcome)
    (company : CompanyRow) (db : List JobRow) (ctx : ScanCtx) : CompanyResult :=
  match outcome with
  | .err msg =>
    { db := db
      company :=
        { company with
          scrape_status := some "failed"
          last_scraped := some now }
      ctx := { ctx with
        errors := ctx.errors ++ [company.name ++ ':' :: ' ' :: msg] }
      jobs_found := 0
      jobs_new := 0
      uncaught := none }
  | .ok jobs =>
    let company1 :=
      { company with
        scrape_status := some "success"
        last_scraped := some now }
    let loop := processJobsLoop s now company1 jobs db ctx 0
    match loop.2.2.2 with
    | some .httpErr =>
      { db := loop.1
        company :=
          { company1 with
            scrape_status := some "failed"
            last_scraped := some now }
        ctx := { loop.2.1 with
          errors := loop.2.1.errors ++
            [company.name ++ ':' :: ' ' :: "http error".data] }
        jobs_found := jobs.length
        jobs_new := loop.2.2.1
        uncaught := none }
    | some .typeErr =>
      { db := loop.1, company := company1, ctx := loop.2.1
        jobs_found := jobs.length, jobs_new := loop.2.2.1
        uncaught := some .typeErr }
    | none =>
      { db := loop.1, company := company1, ctx := loop.2.1
        jobs_found := jobs.length, jobs_new := loop.2.2.1
        uncaught := none }

/-! ### Lemmas about `_process_job` -/

theorem find?_isSome_of_split (pre post : List JobRow) (j : JobRow)
    (u : List Char) (hpre : ∀ j2 ∈ pre, j2.url ≠ u) (hj : j.url = u) :
    ((pre ++ j :: post).find? (fun r => r.url == u)).isSome = true := by
  induction pre with
  | nil =>
    have hb : (j.url == u) = true := by simp [hj]
    simp [List.find?_cons, hb]
  | cons q qs ih =>
    have hq : (q.url == u) = false := by
      simpa using hpre q (by simp)
    simp only [List.cons_append, List.find?_cons, hq]
    exact ih (fun j2 h2 => hpre j2 (by simp [h2]))

theorem updateFirst_split (pre post : List JobRow) (j : JobRow)
    (u : List Char) (f : JobRow → JobRow)
    (hpre : ∀ j2 ∈ pre, j2.url ≠ u) (hj : j.url = u) :
    updateFirst (fun r => r.url == u) f (pre ++ j :: post) =
      pre ++ f j :: post := by
  induction pre with
  | nil =>
    simp only [List.nil_append, updateFirst]
    rw [if_pos (by simp [hj])]
  | cons q qs ih =>
    have hq : q.url ≠ u := hpre q (by simp)
    simp only [List.cons_append, updateFirst, List.append_eq]
    rw [if_neg (by simpa using hq)]
    rw [ih (fun j2 h2 => hpre j2 (by simp [h2]))]

theorem updateFirst_length (pred : JobRow → Bool) (f : JobRow → JobRow)
    (l : List JobRow) : (updateFirst pred f l).length = l.length := by
  induction l with
  | nil => rfl
  | cons j js ih =>
    simp only [updateFirst]
    split
    · simp
    · simp [ih]

theorem updateFirst_map_url (pred : JobRow → Bool) (f : JobRow → JobRow)
    (l : List JobRow) (hf : ∀ j, (f j).url = j.url) :
    (updateFirst pred f l).map JobRow.url = l.map JobRow.url := by
  induction l with
  | nil => rfl
  | cons j js ih =>
    simp only [updateFirst]
    split
    · simp [hf j]
    · simp [ih]

theorem processNewRow_shape (s : Settings) (now : Nat) (o : JobOracle)
    (company : CompanyRow) (p : Posting) (row : JobRow)
    (h : processNewRow s now o company p = .ok row) :
    ∃ primaryJ yoe_minJ yoe_maxJ work_modeJ locationJ salary score,
      row = buildJobRow now o company p primaryJ yoe_minJ yoe_maxJ
        work_modeJ locationJ salary score := by
  simp only [processNewRow] at h
  repeat' split at h
  all_goals first
    | exact Except.noConfusion h
    | (injection h with h2
       exact ⟨_, _, _, _, _, _, _, h2.symm⟩)

theorem buildJobRow_url (now : Nat) (o : JobOracle) (company : CompanyRow)
    (p : Posting) (a b c d e : Option JVal)
    (salary : Option (ℤ × ℤ × String × ℚ)) (score : ℚ) :
    (buildJobRow now o company p a b c d e salary score).url = p.url := rfl

/-- The row salary invariants of the data model, decidably. -/
def salaryInvB (r : JobRow) : Bool :=
  (r.salary_min.isSome == r.salary_max.isSome) &&
  (r.salary_min.isSome == r.salary_source.isSome) &&
  (r.salary_min.isSome == r.salary_confidence.isSome) &&
  (!(r.salary_source == some "ai") || r.salary_estimated)

theorem salaryInvB_buildJobRow (now : Nat) (o : JobOracle)
    (company : CompanyRow) (p : Posting) (a b c d e : Option JVal)
    (salary : Option (ℤ × ℤ × String × ℚ)) (score : ℚ) :
    salaryInvB (buildJobRow now o company p a b c d e salary score) = true := by
  cases salary with
  | none => rfl
  | some t =>
    simp only [salaryInvB, buildJobRow, Option.map_some, Option.isSome_some,
      beq_self_eq_true, Bool.and_self, Bool.true_and]
    cases h : (some t.2.2.1 == some "ai") <;> simp

theorem salaryInvB_notified (r : JobRow) :
    salaryInvB { r with notified := true } = salaryInvB r := rfl

/-- C2 (as claimed): a posting whose URL matches an existing row only
refreshes that first matching row — `last_seen := now`, `raw_description`
backfilled exactly when it was null or empty (`touchExisting`) — adds no
row, and returns false; and `_process_job` preserves global URL uniqueness
in every branch. -/
theorem C2_process_job_dedup (s : Settings) (now : Nat) (o : JobOracle)
    (company : CompanyRow) (p : Posting) :
    (∀ pre j post, (∀ j2 ∈ pre, j2.url ≠ p.url) → j.url = p.url →
      _process_job s now o company (pre ++ j :: post) p =
        { db := pre ++ touchExisting now p.description j :: post
          outcome := .ok false }) ∧
    (∀ db, (db.map JobRow.url).Pairwise (· ≠ ·) →
      ((_process_job s now o company db p).db.map JobRow.url).Pairwise
        (· ≠ ·)) := by
  constructor
  · intro pre j post hpre hj
    unfold _process_job
    rw [if_pos (by exact_mod_cast find?_isSome_of_split pre post j p.url hpre hj)]
    rw [updateFirst_split pre post j p.url _ hpre hj]
  · intro db hP
    unfold _process_job
    by_cases hf : (db.find? (fun r => r.url == p.url)).isSome = true
    · rw [if_pos (by exact_mod_cast hf)]
      dsimp only
      rw [updateFirst_map_url (fun r => r.url == p.url)
        (touchExisting now p.description) db (fun j => rfl)]
      exact hP
    · rw [if_neg (by simpa using hf)]
      by_cases hpot : is_potential_match p.title
      · rw [if_neg (by simpa using hpot)]
        have hnone : db.find? (fun r => r.url == p.url) = none := by
          cases hfe : db.find? (fun r => r.url == p.url) with
          | none => rfl
          | some v => rw [hfe] at hf; simp at hf
        have hfresh : ∀ j ∈ db, j.url ≠ p.url := by
          intro j hjm
          have := List.find?_eq_none.mp hnone j hjm
          simpa using this
        have hpair : ∀ newRow : JobRow, newRow.url = p.url →
            ((db ++ [newRow]).map JobRow.url).Pairwise (· ≠ ·) := by
          intro newRow hu
          rw [List.map_append]
          refine List.pairwise_append.mpr ⟨hP, by simp, ?_⟩
          intro x hx y hy
          simp only [List.map_cons, List.map_nil, List.mem_singleton] at hy
          subst hy
          rw [hu]
          obtain ⟨j, hjm, rfl⟩ := List.mem_map.mp hx
          exact hfresh j hjm
        cases hrow : processNewRow s now o company p with
        | error e =>
          dsimp only
          exact hP
        | ok row =>
          obtain ⟨a, b, c, d, e, sal, sc, rfl⟩ :=
            processNewRow_shape s now o company p row hrow
          dsimp only
          split
          · split
            · exact hpair _ rfl
            · rename_i sent _
              cases sent
              · exact hpair _ rfl
              · exact hpair _ rfl
          · exact hpair _ rfl
      · rw [if_pos (by simpa using hpot)]
        exact hP

/-- C10: every row `_process_job` adds beyond the pre-existing table
satisfies the data-model salary invariants: the four `salary_*` fields are
all null or all non-null together, and `salary_source = "ai"` implies
`salary_estimated = true`. -/
theorem C10_salary_row_invariants (s : Settings) (now : Nat) (o : JobOracle)
    (company : CompanyRow) (db : List JobRow) (p : Posting) :
    (((_process_job s now o company db p).db.drop db.length).all salaryInvB)
      = true := by
  unfold _process_job
  by_cases hf : (db.find? (fun r => r.url == p.url)).isSome = true
  · rw [if_pos (by exact_mod_cast hf)]
    dsimp only
    have hlen := updateFirst_length (fun r => r.url == p.url)
      (touchExisting now p.description) db
    rw [List.drop_eq_nil_of_le hlen.le]
    rfl
  · rw [if_neg (by simpa using hf)]
    by_cases hpot : is_potential_match p.title
    · rw [if_neg (by simpa using hpot)]
      have hdrop : ∀ newRow : JobRow,
          ((db ++ [newRow]).drop db.length).all salaryInvB =
            salaryInvB newRow := by
        intro newRow
        rw [List.drop_left]
        simp
      cases hrow : processNewRow s now o company p with
      | error e =>
        dsimp only
        rw [List.drop_eq_nil_of_le le_rfl]
        rfl
      | ok row =>
        obtain ⟨a, b, c, d, e, sal, sc, rfl⟩ :=
          processNewRow_shape s now o company p row hrow
        dsimp only
        split
        · split
          · rw [hdrop]
            exact salaryInvB_buildJobRow now o company p a b c d e sal sc
          · rename_i sent _
            cases sent
            · rw [hdrop, if_neg (by simp)]
              exact salaryInvB_buildJobRow now o company p a b c d e sal sc
            · rw [hdrop, if_pos rfl]
              exact salaryInvB_buildJobRow now o company p a b c d e sal sc
        · rw [hdrop]
          exact salaryInvB_buildJobRow now o company p a b c d e sal sc
    · rw [if_pos (by simpa using hpot)]
      dsimp only
      rw [List.drop_eq_nil_of_le le_rfl]
      rfl

/-! ### Concrete fixtures -/

def comp0 : CompanyRow :=
  { id := "c1", name := "Acme".data, careers_url := "https://a".data
    tier := 1, enabled := true, last_scraped := none, scrape_status := none }

def oracle0 : JobOracle :=
  { newId := "j-new", llmExtract := .response "nonsense".data
    llmSalary := .response "nonsense".data, notifySent := some false }

def row0 : JobRow :=
  { id := "j1", company_id := "c1", title := "Senior TPM".data
    primary_function := none, url := "https://x/1".data
    yoe_min := none, yoe_max := none, yoe_source := none
    salary_min := none, salary_max := none, salary_source := none
    salary_confidence := none, salary_estimated := false
    work_mode := none, location := none, match_score := 0
    raw_description := none, status := "new", first_seen := 0, last_seen := 0
    notified := false }

def post0 : Posting :=
  { url := "https://x/1".data, title := "Senior TPM".data
    description := "desc".data }

def post1 : Posting :=
  { url := "https://x/2".data, title := "Senior TPM".data
    description := "Pays $150,000 - $200,000. AI platform.".data }

/-- The insert path really fires: on a fresh matching posting a row is
added and `_process_job` reports a new job. -/
theorem process_job_insert_example :
    (_process_job defaultSettings 7 oracle0 comp0 [] post1).outcome =
      .ok true ∧
    (_process_job defaultSettings 7 oracle0 comp0 [] post1).db.length = 1 :=
  ⟨by with_unfolding_all rfl, by with_unfolding_all rfl⟩

/-- Witness for C2 at a one-row table whose row matches the posting URL. -/
theorem C2_process_job_dedup_witness :
    _process_job defaultSettings 5 oracle0 comp0 [row0] post0 =
      { db := [touchExisting 5 post0.description row0]
        outcome := .ok false } ∧
    ((_process_job defaultSettings 5 oracle0 comp0 [row0] post0).db.map
      JobRow.url).Pairwise (· ≠ ·) :=
  ⟨by
    have h := (C2_process_job_dedup defaultSettings 5 oracle0 comp0 post0).1
      [] row0 [] (by simp) rfl
    simpa using h,
   (C2_process_job_dedup defaultSettings 5 oracle0 comp0 post0).2 [row0]
    (by simp)⟩

/-! ### C8: LLM failure handling -/

theorem c8_sentinel_defaults (raw : List Char) (h : safe_json_parse raw = none) :
    extract_job_info (.response raw) = .ok EXTRACT_DEFAULTS ∧
    estimate_salary_with_llm (.response raw) = .ok none := by
  constructor
  · simp [extract_job_info, h]
  · simp [estimate_salary_with_llm, h]

theorem c8_nonjson_process (s : Settings) (now : Nat) (nid : String)
    (raw1 raw2 : List Char) (sent : Bool) (company : CompanyRow)
    (db : List JobRow) (p : Posting)
    (h1 : safe_json_parse raw1 = none) (h2 : safe_json_parse raw2 = none)
    (hfind : db.find? (fun r => r.url == p.url) = none)
    (hpot : is_potential_match p.title = true) :
    (_process_job s now ⟨nid, .response raw1, .response raw2, some sent⟩
        company db p).outcome = .ok true ∧
    (_process_job s now ⟨nid, .response raw1, .response raw2, some sent⟩
        company db p).db.length = db.length + 1 := by
  have g1 : pyDictGet EXTRACT_DEFAULTS ("yoe_required".data) = .ok none := rfl
  have g2 : pyDictGet EXTRACT_DEFAULTS ("work_mode".data) =
      .ok (some (.str "unclear".data)) := rfl
  have g3 : pyDictGet EXTRACT_DEFAULTS ("location".data) =
      .ok (some (.str "Unknown".data)) := rfl
  have g4 : pyDictGet EXTRACT_DEFAULTS ("primary_function".data) =
      .ok (some (.str "Other".data)) := rfl
  have hne : ∀ e, processNewRow s now
      ⟨nid, .response raw1, .response raw2, some sent⟩ company p ≠
        .error e := by
    intro e he
    cases hs : extract_salary_from_text p.description with
    | none =>
      simp only [processNewRow, extract_job_info, h1, g1, g2, g3, g4, hs,
        estimate_salary_with_llm, h2, yoeArg, workModeArg] at he
      exact Except.noConfusion he
    | some t =>
      simp only [processNewRow, extract_job_info, h1, g1, g2, g3, g4, hs,
        yoeArg, workModeArg] at he
      exact Except.noConfusion he
  have hrow : ∃ row, processNewRow s now
      ⟨nid, .response raw1, .response raw2, some sent⟩ company p = .ok row := by
    cases hres : processNewRow s now
        ⟨nid, .response raw1, .response raw2, some sent⟩ company p with
    | error e => exact absurd hres (hne e)
    | ok row => exact ⟨row, rfl⟩
  obtain ⟨row, hrowEq⟩ := hrow
  have hmain : ∃ row2, _process_job s now
      ⟨nid, .response raw1, .response raw2, some sent⟩ company db p =
        { db := db ++ [row2], outcome := .ok true } := by
    unfold _process_job
    rw [if_neg (by simp [hfind]), if_neg (by simp [hpot]), hrowEq]
    dsimp only
    split
    · exact ⟨_, rfl⟩
    · exact ⟨_, rfl⟩
  obtain ⟨row2, hEq⟩ := hmain
  rw [hEq]
  exact ⟨rfl, by simp⟩

theorem c8_httpfail_job (s : Settings) (now : Nat) (o : JobOracle)
    (db : List JobRow) (p : Posting)
    (hllm : o.llmExtract = .httpFail)
    (hfind : db.find? (fun r => r.url == p.url) = none)
    (hpot : is_potential_match p.title = true) :
    ∀ comp2 : CompanyRow, _process_job s now o comp2 db p =
      { db := db, outcome := .error .httpErr } := by
  intro comp2
  unfold _process_job
  rw [if_neg (by simp [hfind]), if_neg (by simp [hpot])]
  have hpr : processNewRow s now o comp2 p = .error .httpErr := by
    unfold processNewRow
    rw [show extract_job_info o.llmExtract = .error .httpErr from by
      rw [hllm]
      rfl]
  rw [hpr]

theorem c8_httpfail_company (s : Settings) (now : Nat) (o : JobOracle)
    (company : CompanyRow) (db : List JobRow) (ctx : ScanCtx) (p : Posting)
    (rest : List (Posting × JobOracle))
    (hllm : o.llmExtract = .httpFail)
    (hfind : db.find? (fun r => r.url == p.url) = none)
    (hpot : is_potential_match p.title = true) :
    (_process_company s now (.ok ((p, o) :: rest)) company db ctx).company.scrape_status
        = some "failed" ∧
    (_process_company s now (.ok ((p, o) :: rest)) company db ctx).db = db ∧
    (_process_company s now (.ok ((p, o) :: rest)) company db ctx).jobs_new = 0 ∧
    (_process_company s now (.ok ((p, o) :: rest)) company db ctx).uncaught = none ∧
    (_process_company s now (.ok ((p, o) :: rest)) company db ctx).ctx.errors
        = ctx.errors ++ [company.name ++ ':' :: ' ' :: "http error".data] := by
  have hjob := c8_httpfail_job s now o db p hllm hfind hpot
  have hloop : ∀ comp2 : CompanyRow,
      processJobsLoop s now comp2 ((p, o) :: rest) db ctx 0 =
        (db, ctx, 0, some PyErr.httpErr) := by
    intro comp2
    simp [processJobsLoop, hjob comp2]
  refine ⟨?_, ?_, ?_, ?_, ?_⟩
  all_goals
    simp only [_process_company, hloop]

/-- C8 (amended): a non-JSON LLM response is replaced by the sentinel
defaults (`extract_job_info` returns them, `estimate_salary_with_llm`
returns null) and never aborts — a fresh matching posting is still
inserted.  But an LLM transport failure that exhausts the retries (e.g. a
persistent timeout) raises `httpx.HTTPError` out of `_process_job`;
`_process_company`'s except clause catches it, marks the company failed,
records an error, and skips the company's remaining postings. -/
theorem C8_llm_failure_amended :
    (∀ raw, safe_json_parse raw = none →
      extract_job_info (.response raw) = .ok EXTRACT_DEFAULTS ∧
      estimate_salary_with_llm (.response raw) = .ok none) ∧
    (∀ s now nid raw1 raw2 sent company db p,
      safe_json_parse raw1 = none → safe_json_parse raw2 = none →
      db.find? (fun r : JobRow => r.url == p.url) = none →
      is_potential_match p.title = true →
      (_process_job s now ⟨nid, .response raw1, .response raw2, some sent⟩
          company db p).outcome = .ok true ∧
      (_process_job s now ⟨nid, .response raw1, .response raw2, some sent⟩
          company db p).db.length = db.length + 1) ∧
    (∀ s now o company db ctx p rest,
      o.llmExtract = .httpFail →
      db.find? (fun r : JobRow => r.url == p.url) = none →
      is_potential_match p.title = true →
      (_process_company s now (.ok ((p, o) :: rest)) company db
          ctx).company.scrape_status = some "failed" ∧
      (_process_company s now (.ok ((p, o) :: rest)) company db ctx).db = db ∧
      (_process_company s now (.ok ((p, o) :: rest)) company db
          ctx).jobs_new = 0 ∧
      (_process_company s now (.ok ((p, o) :: rest)) company db
          ctx).uncaught = none ∧
      (_process_company s now (.ok ((p, o) :: rest)) company db
          ctx).ctx.errors =
        ctx.errors ++ [company.name ++ ':' :: ' ' :: "http error".data]) :=
  ⟨c8_sentinel_defaults,
   fun s now nid raw1 raw2 sent company db p h1 h2 hf hp =>
    c8_nonjson_process s now nid raw1 raw2 sent company db p h1 h2 hf hp,
   fun s now o company db ctx p rest hllm hf hp =>
    c8_httpfail_company s now o company db ctx p rest hllm hf hp⟩

def c8post1 : Posting :=
  { url := "https://x/10".data, title := "Senior TPM".data
    description := "d1".data }

def c8post2 : Posting :=
  { url := "https://x/11".data, title := "Senior TPM".data
    description := "d2".data }

def c8failOracle : JobOracle :=
  { newId := "f1", llmExtract := .httpFail, llmSalary := .httpFail
    notifySent := some false }

def ctx0 : ScanCtx :=
  { companies_scanned := 1, jobs_found := 0, jobs_new := 0, errors := [] }

/-- Witness for C8's amended theorem at concrete inputs. -/
theorem C8_llm_failure_amended_witness :
    (extract_job_info (.response "not json".data) = .ok EXTRACT_DEFAULTS ∧
      estimate_salary_with_llm (.response "not json".data) = .ok none) ∧
    ((_process_job defaultSettings 3 ⟨"n1", .response "bad".data,
        .response "bad".data, some false⟩ comp0 [] post1).outcome =
          .ok true ∧
      (_process_job defaultSettings 3 ⟨"n1", .response "bad".data,
        .response "bad".data, some false⟩ comp0 [] post1).db.length =
          ([] : List JobRow).length + 1) ∧
    (_process_company defaultSettings 9
        (.ok [(c8post1, c8failOracle), (c8post2, oracle0)]) comp0 [] ctx0).db
      = [] :=
  ⟨C8_llm_failure_amended.1 ("not json".data) rfl,
   C8_llm_failure_amended.2.1 defaultSettings 3 "n1" ("bad".data) ("bad".data)
     false comp0 [] post1 rfl rfl rfl rfl,
   (C8_llm_failure_amended.2.2 defaultSettings 9 c8failOracle comp0 [] ctx0
     c8post1 [(c8post2, oracle0)] rfl rfl rfl).2.1⟩

def c8result : CompanyResult :=
  _process_company defaultSettings 9
    (.ok [(c8post1, c8failOracle), (c8post2, oracle0)]) comp0 [] ctx0

/-- C8 counterexample: with the first posting's LLM extraction failing at
the transport level (persistent timeout), the scan of this company aborts:
no row is inserted (the second posting would otherwise have produced one),
the company is marked failed, and an error is recorded — the failure is
not replaced by sentinel defaults. -/
theorem C8_llm_failure_counterexample :
    c8result.db = [] ∧
    c8result.company.scrape_status = some "failed" ∧
    c8result.jobs_new = 0 ∧
    c8result.uncaught = none ∧
    (_process_company defaultSettings 9 (.ok [(c8post2, oracle0)]) comp0 []
      ctx0).db.length = 1 :=
  ⟨rfl, rfl, rfl, rfl, by with_unfolding_all rfl⟩

/-! ## Scan controller singleton guard (api/services/pipeline.py `run_full_scan`)

`run_full_scan` first awaits the guard read (`_is_scan_running`, a SELECT
of the singleton ScanState row) and returns the current status when it is
"running"; otherwise it increments `SCANS_TOTAL`/`SCANS_RUNNING` and
commits `_reset_scan_state` (`status := "running"`, creating the row when
missing).  The guard read and the reset write are separate awaited
database operations, so two concurrent calls can interleave between them;
a call is modelled as two atomic steps — `pc 0`: the guard read, finishing
early when the status is running; `pc 1`: the metric increments and the
reset commit.  The later steps (progress updates `running → running` and
the final `completed` write) occur only in a call that already
transitioned and are not needed by the claim. -/

inductive ScanStatus where
  | idle : ScanStatus
  | running : ScanStatus
  | completed : ScanStatus
deriving DecidableEq

/-- Call-local state: program counter (0 = before the guard read, 1 = past
the guard, 2 = finished), the counts of ScanState writes and metric
increments this call performed, whether it wrote the transition into
running, and the status it returned when it finished via the guard. -/
structure CallState where
  pc : Nat
  writes : Nat
  metricIncs : Nat
  transitioned : Bool
  ret : Option ScanStatus
deriving DecidableEq

def callInit : CallState := ⟨0, 0, 0, false, none⟩

/-- One atomic step of `run_full_scan` against the persisted status
(`none` = no ScanState row yet; `_is_scan_running` treats it as not
running). -/
def stepCall (g : Option ScanStatus) (c : CallState) :
    Option ScanStatus × CallState :=
  if c.pc = 0 then
    if g = some .running then (g, { c with pc := 2, ret := some .running })
    else (g, { c with pc := 1 })
  else if c.pc = 1 then
    (some .running,
      { c with
        pc := 2
        writes := c.writes + 1
        metricIncs := c.metricIncs + 2
        transitioned := true })
  else (g, c)

structure RaceState where
  g : Option ScanStatus
  a : CallState
  b : CallState
deriving DecidableEq

/-- Run whichever call the scheduler picks (`true` = call A). -/
def stepRace (st : RaceState) (pick : Bool) : RaceState :=
  match pick with
  | true =>
    { g := (stepCall st.g st.a).1, a := (stepCall st.g st.a).2, b := st.b }
  | false =>
    { g := (stepCall st.g st.b).1, a := st.a, b := (stepCall st.g st.b).2 }

/-- Two racing `run_full_scan` calls under an interleaving schedule. -/
def runRace (sched : List Bool) (g0 : Option ScanStatus) : RaceState :=
  sched.foldl stepRace { g := g0, a := callInit, b := callInit }

/-- A call that has been a no-op so far: no ScanState writes, no metric
increments, no transition, never past the guard, and if finished it
returned the running status. -/
def noopCall (c : CallState) : Prop :=
  c.writes = 0 ∧ c.metricIncs = 0 ∧ c.transitioned = false ∧ c.pc ≠ 1 ∧
  (c.pc = 2 → c.ret = some ScanStatus.running)

theorem c1_noop_call (g : Option ScanStatus) (c : CallState)
    (hg : g = some .running) (hc : noopCall c) :
    (stepCall g c).1 = some .running ∧ noopCall (stepCall g c).2 := by
  obtain ⟨hw, hm, ht, hp1, hp2⟩ := hc
  unfold stepCall
  by_cases hpc0 : c.pc = 0
  · rw [if_pos hpc0, if_pos hg]
    exact ⟨hg, hw, hm, ht, by simp, fun _ => rfl⟩
  · rw [if_neg hpc0, if_neg hp1]
    exact ⟨hg, hw, hm, ht, hp1, hp2⟩

theorem c1_noop_fold (sched : List Bool) (st : RaceState)
    (h : st.g = some .running ∧ noopCall st.a ∧ noopCall st.b) :
    (sched.foldl stepRace st).g = some .running ∧
    noopCall (sched.foldl stepRace st).a ∧
    noopCall (sched.foldl stepRace st).b := by
  induction sched generalizing st with
  | nil => exact h
  | cons pick rest ih =>
    apply ih
    obtain ⟨hg, ha, hb⟩ := h
    cases pick with
    | true =>
      have hstep := c1_noop_call st.g st.a hg ha
      exact ⟨hstep.1, hstep.2, hb⟩
    | false =>
      have hstep := c1_noop_call st.g st.b hg hb
      dsimp only [stepRace]
      exact ⟨hstep.1, ha, hstep.2⟩

/-- The progress invariant: a call that finished without transitioning saw
a running status, and a running status means somebody transitioned. -/
def Kinv (st : RaceState) : Prop :=
  (st.a.pc = 2 → st.a.transitioned = false → st.g = some ScanStatus.running) ∧
  (st.b.pc = 2 → st.b.transitioned = false → st.g = some ScanStatus.running) ∧
  (st.g = some ScanStatus.running →
    st.a.transitioned = true ∨ st.b.transitioned = true)

theorem c1_K_call (g : Option ScanStatus) (c : CallState) :
    ((c.pc = 2 → c.transitioned = false → g = some ScanStatus.running) →
      (stepCall g c).2.pc = 2 → (stepCall g c).2.transitioned = false →
        (stepCall g c).1 = some ScanStatus.running) ∧
    ((stepCall g c).2.transitioned = true ∨
      (stepCall g c).2.transitioned = c.transitioned) ∧
    ((stepCall g c).1 = g ∨ (stepCall g c).2.transitioned = true) ∧
    (g = some ScanStatus.running →
      (stepCall g c).1 = some ScanStatus.running) := by
  unfold stepCall
  by_cases hpc0 : c.pc = 0
  · rw [if_pos hpc0]
    by_cases hgr : g = some ScanStatus.running
    · rw [if_pos hgr]
      exact ⟨fun _ _ _ => hgr, Or.inr rfl, Or.inl rfl, fun h => h⟩
    · rw [if_neg hgr]
      exact ⟨fun _ h => by simp at h, Or.inr rfl, Or.inl rfl, fun h => h⟩
  · rw [if_neg hpc0]
    by_cases hpc1 : c.pc = 1
    · rw [if_pos hpc1]
      exact ⟨fun _ _ h => by simp at h, Or.inl rfl, Or.inr rfl, fun _ => rfl⟩
    · rw [if_neg hpc1]
      exact ⟨fun hold hp ht => hold hp ht, Or.inr rfl, Or.inl rfl,
        fun h => h⟩

theorem c1_K_step (st : RaceState) (pick : Bool) (hK : Kinv st) :
    Kinv (stepRace st pick) := by
  obtain ⟨h1, h2, h3⟩ := hK
  cases pick with
  | true =>
    obtain ⟨k1, k2, k3, k4⟩ := c1_K_call st.g st.a
    have hmono : st.a.transitioned = true →
        (stepCall st.g st.a).2.transitioned = true := by
      intro h
      rcases k2 with h2' | h2'
      · exact h2'
      · rw [h2', h]
    refine ⟨k1 h1, ?_, ?_⟩
    · intro hbp hbt
      exact k4 (h2 hbp hbt)
    · intro hg
      dsimp only [stepRace] at hg ⊢
      rcases k3 with hsame | hT
      · rw [hsame] at hg
        rcases h3 hg with hA | hB
        · exact Or.inl (hmono hA)
        · exact Or.inr hB
      · exact Or.inl hT
  | false =>
    obtain ⟨k1, k2, k3, k4⟩ := c1_K_call st.g st.b
    have hmono : st.b.transitioned = true →
        (stepCall st.g st.b).2.transitioned = true := by
      intro h
      rcases k2 with h2' | h2'
      · exact h2'
      · rw [h2', h]
    refine ⟨?_, k1 h2, ?_⟩
    · intro hap hat
      exact k4 (h1 hap hat)
    · intro hg
      dsimp only [stepRace] at hg ⊢
      rcases k3 with hsame | hT
      · rw [hsame] at hg
        rcases h3 hg with hA | hB
        · exact Or.inl hA
        · exact Or.inr (hmono hB)
      · exact Or.inr hT

theorem c1_K_fold (sched : List Bool) (st : RaceState) (hK : Kinv st) :
    Kinv (sched.foldl stepRace st) := by
  induction sched generalizing st with
  | nil => exact hK
  | cons pick rest ih => exact ih (stepRace st pick) (c1_K_step st pick hK)

/-- C1 (amended): while persisted status is `running`, any schedule of the
two calls is a complete no-op — status stays `running`, neither call
writes state, increments a metric, or transitions, and a finished call
returned the running status.  From an idle/completed/missing state, any
complete schedule has at least one call transition into running, and the
serialized schedule (one call's guard read and reset both before the
other's) has exactly one: the second call sees `running` and returns
without side effects.  (Interleaved schedules can make both transition —
see the counterexample.) -/
theorem C1_run_full_scan_guard_amended :
    (∀ sched : List Bool,
      (runRace sched (some .running)).g = some ScanStatus.running ∧
      noopCall (runRace sched (some .running)).a ∧
      noopCall (runRace sched (some .running)).b) ∧
    (∀ (sched : List Bool) (g0 : Option ScanStatus),
      g0 ≠ some ScanStatus.running →
      (runRace sched g0).a.pc = 2 → (runRace sched g0).b.pc = 2 →
      (runRace sched g0).a.transitioned = true ∨
        (runRace sched g0).b.transitioned = true) ∧
    (∀ g0 : Option ScanStatus, g0 ≠ some ScanStatus.running →
      (runRace [true, true, false, false] g0).a.transitioned = true ∧
      (runRace [true, true, false, false] g0).b.transitioned = false ∧
      (runRace [true, true, false, false] g0).b.writes = 0 ∧
      (runRace [true, true, false, false] g0).b.metricIncs = 0 ∧
      (runRace [true, true, false, false] g0).b.ret =
        some ScanStatus.running) := by
  refine ⟨?_, ?_, ?_⟩
  · intro sched
    exact c1_noop_fold sched _
      ⟨rfl, ⟨rfl, rfl, rfl, by simp [callInit], by simp [callInit]⟩,
       ⟨rfl, rfl, rfl, by simp [callInit], by simp [callInit]⟩⟩
  · intro sched g0 hg0 hap hbp
    have hK := c1_K_fold sched { g := g0, a := callInit, b := callInit }
      ⟨fun h _ => by simp [callInit] at h,
       fun h _ => by simp [callInit] at h,
       fun h => absurd h hg0⟩
    obtain ⟨k1, k2, k3⟩ := hK
    by_cases hAT : (runRace sched g0).a.transitioned = true
    · exact Or.inl hAT
    · have hAF : (runRace sched g0).a.transitioned = false := by
        cases hx : (runRace sched g0).a.transitioned
        · rfl
        · exact absurd hx hAT
      exact k3 (k1 hap hAF)
  · intro g0 hg0
    cases g0 with
    | none => decide
    | some s =>
      cases s with
      | idle => decide
      | running => exact absurd rfl hg0
      | completed => decide

/-- Witness for C1's amended theorem at concrete schedules. -/
theorem C1_run_full_scan_guard_amended_witness :
    noopCall (runRace [true, false] (some .running)).a ∧
    ((runRace [true, true, false, false] (some ScanStatus.idle)).a.transitioned
        = true ∨
      (runRace [true, true, false, false]
        (some ScanStatus.idle)).b.transitioned = true) ∧
    (runRace [true, true, false, false]
      (some ScanStatus.completed)).b.writes = 0 :=
  ⟨(C1_run_full_scan_guard_amended.1 [true, false]).2.1,
   C1_run_full_scan_guard_amended.2.1 [true, true, false, false]
     (some ScanStatus.idle) (by decide) (by decide) (by decide),
   (C1_run_full_scan_guard_amended.2.2 (some ScanStatus.completed)
     (by decide)).2.2.1⟩

/-- C1 counterexample: under the interleaving `A.check, B.check, A.reset,
B.reset` from an idle state, both calls pass the guard and both transition
ScanState into running, each writing state and bumping the metrics — the
"exactly one transition, the other without side effects" part of the claim
fails for racing calls. -/
theorem C1_run_full_scan_guard_counterexample :
    (runRace [true, false, true, false]
      (some ScanStatus.idle)).a.transitioned = true ∧
    (runRace [true, false, true, false]
      (some ScanStatus.idle)).b.transitioned = true ∧
    (runRace [true, false, true, false] (some ScanStatus.idle)).b.writes = 1 ∧
    (runRace [true, false, true, false]
      (some ScanStatus.idle)).b.metricIncs = 2 := by
  decide

end Auros
